import Mathlib

/-!
Shallow embedding of the typed evaluation engine of the wirefilter
repository (file src/context/execution.rs): the value model, the
three-way comparison/ordering engine (including CIDR range membership),
the operator dispatch (ordering-relational and matching operators),
the set-membership evaluator `one_of`, and the boolean combinator layer.

Machine values are embedded as follows: `u64` becomes `Nat` (bitwise AND
never overflows, and `Ord` on `u64` agrees with the `Nat` order on values
below 2^64); byte strings (`Bytes`) become `List Nat` of byte values;
IPv4/IPv6 addresses become `Nat` carrying their numeric order, which is
order-isomorphic to the `Ord` instances the source relies on.

The regular-expression engine (the external `regex` crate) is abstracted
as a `RegexEngine` parameter: a fallible compilation function plus a
matcher, mirroring `Regex::new` (which returns `Result`) and
`Regex::is_match`. The source calls `.unwrap()` on the compilation
result, which aborts the process on a compilation failure; this abrupt
outcome is made explicit as a `panicked` result constructor.
-/

namespace Wirefilter

/-- Modelled from the spec: the repository's `Bytes` type (not part of the
given source file) carries a derived flag telling whether the raw bytes are
valid text; `as_str` succeeds exactly on valid text. Text validity is
standard UTF-8 well-formedness, checked here by a byte-level state machine:
`pending` continuation bytes are still expected, the next one constrained to
the interval `[lo, hi]`, later ones to the generic `[0x80, 0xBF]`. -/
structure Utf8State where
  pending : Nat
  lo : Nat
  hi : Nat
deriving DecidableEq

/-- Classify a leading UTF-8 byte: the state describing the continuation
bytes it requires, or `none` when the byte can never begin a sequence. -/
def utf8Start (b : Nat) : Option Utf8State :=
  if b ≤ 0x7F then some ⟨0, 0x80, 0xBF⟩
  else if 0xC2 ≤ b && b ≤ 0xDF then some ⟨1, 0x80, 0xBF⟩
  else if b = 0xE0 then some ⟨2, 0xA0, 0xBF⟩
  else if 0xE1 ≤ b && b ≤ 0xEC then some ⟨2, 0x80, 0xBF⟩
  else if b = 0xED then some ⟨2, 0x80, 0x9F⟩
  else if 0xEE ≤ b && b ≤ 0xEF then some ⟨2, 0x80, 0xBF⟩
  else if b = 0xF0 then some ⟨3, 0x90, 0xBF⟩
  else if 0xF1 ≤ b && b ≤ 0xF3 then some ⟨3, 0x80, 0xBF⟩
  else if b = 0xF4 then some ⟨3, 0x80, 0x8F⟩
  else none

/-- Run the UTF-8 validity state machine over the remaining bytes. -/
def isUtf8From : List Nat → Utf8State → Bool
  | [], s => s.pending == 0
  | b :: t, s =>
    if s.pending == 0 then
      match utf8Start b with
      | some s2 => isUtf8From t s2
      | none => false
    else
      (s.lo ≤ b && b ≤ s.hi) && isUtf8From t ⟨s.pending - 1, 0x80, 0xBF⟩

/-- Whether a byte sequence is valid text (UTF-8); embeds `Bytes::is_str`. -/
def isUtf8 (l : List Nat) : Bool := isUtf8From l ⟨0, 0x80, 0xBF⟩

/-- Embeds `Bytes::as_str`: the text of the byte sequence (a Rust `str` is
its UTF-8 bytes, so the text is the byte list itself) when valid, else none. -/
def asStr (l : List Nat) : Option (List Nat) :=
  if isUtf8 l then some l else none

/-- Does `hay` start with `needle`? Helper for byte containment. -/
def bytesStartsWith : List Nat → List Nat → Bool
  | _, [] => true
  | [], _ :: _ => false
  | a :: hs, b :: ns => a == b && bytesStartsWith hs ns

/-- Modelled from the spec: the repository's `Bytes::contains` (not part of
the given source file) — the needle's bytes occur as a contiguous
sub-sequence of the haystack's bytes, raw byte containment, not text-aware. -/
def bytesContains : List Nat → List Nat → Bool
  | hay, needle =>
    bytesStartsWith hay needle ||
      match hay with
      | [] => false
      | _ :: t => bytesContains t needle

/-- Lexicographic byte ordering on byte sequences: embeds `Ord` on `Bytes`
(Rust slice ordering). -/
def bytesCmp : List Nat → List Nat → Ordering
  | [], [] => .eq
  | [], _ :: _ => .lt
  | _ :: _, [] => .gt
  | a :: xs, b :: ys =>
    match compare a b with
    | .eq => bytesCmp xs ys
    | o => o

/-- An IP address: embeds `std::net::IpAddr`, the v4/v6 address itself
represented by its numeric value (order-isomorphic to the source's `Ord`). -/
inductive IpAddr where
  | v4 (a : Nat)
  | v6 (a : Nat)
deriving DecidableEq

/-- A left-hand-side (runtime) value: embeds the `LhsValue` nested enum. -/
inductive LhsValue where
  | ipAddr (a : IpAddr)
  | bytes (b : List Nat)
  | unsigned (n : Nat)
deriving DecidableEq

/-- A CIDR block, given by its inclusive first and last addresses: embeds
the `Cidr` trait surface used by the source (`first_address`/`last_address`). -/
structure Cidr where
  first : Nat
  last : Nat
deriving DecidableEq

/-- A v4 or v6 CIDR block: embeds `cidr::IpCidr`. -/
inductive IpCidr where
  | v4 (c : Cidr)
  | v6 (c : Cidr)
deriving DecidableEq

/-- A right-hand-side (operand) value: embeds `RhsValue`. -/
inductive RhsValue where
  | ipCidr (c : IpCidr)
  | bytes (b : List Nat)
  | unsigned (n : Nat)
deriving DecidableEq

/-- Modelled from the spec: the type tag (`Type` in the source's `context`
module, outside the given file) used purely for error reporting — one of
NetworkAddressV4, NetworkAddressV6, Text, ByteSequence, UnsignedInteger. -/
inductive Ty where
  | ipAddrV4
  | ipAddrV6
  | string
  | bytes
  | unsigned
deriving DecidableEq

/-- Modelled from the spec: an `OrderingMask` (from the source's `op`
module, outside the given file) is a small set of permitted three-way
outcomes representing a relational operator. -/
structure OrderingMask where
  lt : Bool
  eq : Bool
  gt : Bool
deriving DecidableEq

/-- Mask membership test: embeds `OrderingMask::contains(ordering.into())`. -/
def OrderingMask.contains (m : OrderingMask) : Ordering → Bool
  | .lt => m.lt
  | .eq => m.eq
  | .gt => m.gt

/-- The `==` relational operator: the mask permitting only Equal. -/
def OrderingMask.EQUAL : OrderingMask := ⟨false, true, false⟩

/-- Modelled from the spec: the matching operators of the `op` module. -/
inductive MatchingOp where
  | matches
  | bitwiseAnd
  | contains
deriving DecidableEq

/-- Modelled from the spec: a comparison operator is either an
ordering-relational operator (an OrderingMask) or a matching operator. -/
inductive ComparisonOp where
  | ordering (m : OrderingMask)
  | matching (m : MatchingOp)
deriving DecidableEq

/-- Modelled from the spec: the binary boolean combinators of the `op` module. -/
inductive CombiningOp where
  | and
  | or
  | xor
deriving DecidableEq

/-- Modelled from the spec: the unary boolean operator of the `op` module. -/
inductive UnaryOp where
  | not
deriving DecidableEq

/-- Embeds `range_order`: three-way ordering of a value against an
inclusive range, `Less` when below the first bound, `Greater` when above
the last bound, `Equal` otherwise. Generic over `Ord` as in the source. -/
def rangeOrder {T : Type} [LinearOrder T] (lhs rhsFirst rhsLast : T) : Ordering :=
  match compare lhs rhsFirst, compare lhs rhsLast with
  | .lt, _ => .lt
  | _, .gt => .gt
  | _, _ => .eq

/-- Embeds `ip_order`: an address against a CIDR block is ordered by
`range_order` against the block's inclusive first/last addresses. -/
def ipOrder (lhs : Nat) (rhs : Cidr) : Ordering :=
  rangeOrder lhs rhs.first rhs.last

/-- Embeds `PartialOrd<RhsValue> for LhsValue::partial_cmp`: a three-way
ordering for aligned domains, `none` (type mismatch) otherwise. -/
def partialCmp : LhsValue → RhsValue → Option Ordering
  | .ipAddr (.v4 a), .ipCidr (.v4 c) => some (ipOrder a c)
  | .ipAddr (.v6 a), .ipCidr (.v6 c) => some (ipOrder a c)
  | .unsigned l, .unsigned r => some (compare l r)
  | .bytes l, .bytes r => some (bytesCmp l r)
  | _, _ => none

/-- The abstract regular-expression engine standing for the external
`regex` crate: `compile` embeds the fallible `Regex::new` (patterns are the
UTF-8 bytes of the pattern text), `isMatch` embeds `Regex::is_match` on a
compiled pattern. -/
structure RegexEngine where
  compile : List Nat → Option (List Nat)
  isMatch : List Nat → List Nat → Bool

/-- The outcome of `exec_op`: `Some(bool)` or `None` in the source, plus
the explicit `panicked` outcome produced by `.unwrap()` on a failed
pattern compilation. -/
inductive ExecOut where
  | panicked
  | mismatch
  | value (b : Bool)
deriving DecidableEq

/-- The outcome of `compare`: `Ok(bool)` or `Err(Type)` in the source,
plus the explicit `panicked` outcome inherited from `exec_op`. -/
inductive CmpResult where
  | panicked
  | error (t : Ty)
  | ok (b : Bool)
deriving DecidableEq

/-- Embeds `exec_op`: ordering operators test the three-way ordering
against the mask; matching operators dispatch strictly on the concrete
domain pairing, with `Matches` gated on both sides being valid text and
panicking (as the source's `.unwrap()` does) when the pattern fails to
compile; any other pairing is a mismatch. -/
def execOp (R : RegexEngine) (lhs : LhsValue) (op : ComparisonOp) (rhs : RhsValue) : ExecOut :=
  match op with
  | .ordering m =>
    match partialCmp lhs rhs with
    | some o => .value (m.contains o)
    | none => .mismatch
  | .matching mop =>
    match lhs, mop, rhs with
    | .bytes l, .matches, .bytes r =>
      match asStr l, asStr r with
      | some ls, some rs =>
        match R.compile rs with
        | some pat => .value (R.isMatch pat ls)
        | none => .panicked
      | _, _ => .mismatch
    | .unsigned l, .bitwiseAnd, .unsigned r => .value ((l &&& r) != 0)
    | .bytes l, .contains, .bytes r => .value (bytesContains l r)
    | _, _, _ => .mismatch

/-- Embeds the type-tag computation in `compare`'s `ok_or_else` closure:
the tag describing the runtime value's actual domain, with valid-text
byte sequences tagged `String` and other byte sequences tagged `Bytes`. -/
def typeTag : LhsValue → Ty
  | .ipAddr (.v4 _) => .ipAddrV4
  | .ipAddr (.v6 _) => .ipAddrV6
  | .bytes b => if isUtf8 b then .string else .bytes
  | .unsigned _ => .unsigned

/-- Embeds `ExecutionContext::compare`: run `exec_op`, turning a mismatch
into an error carrying the runtime value's type tag. -/
def compareVal (R : RegexEngine) (lhs : LhsValue) (op : ComparisonOp) (rhs : RhsValue) :
    CmpResult :=
  match execOp R lhs op rhs with
  | .panicked => .panicked
  | .mismatch => .error (typeTag lhs)
  | .value b => .ok b

/-- The loop of `one_of`: thread the accumulator through equality
comparisons, propagating the first error (the source's `?` operator)
and OR-ing each comparison result into the accumulator (`acc |=`). -/
def oneOfLoop (R : RegexEngine) (lhs : LhsValue) : List RhsValue → Bool → CmpResult
  | [], acc => .ok acc
  | r :: rs, acc =>
    match compareVal R lhs (.ordering OrderingMask.EQUAL) r with
    | .panicked => .panicked
    | .error t => .error t
    | .ok b => oneOfLoop R lhs rs (acc || b)

/-- Embeds `ExecutionContext::one_of`: the accumulator is seeded with
`true` (`let mut acc = true;`), then each candidate is compared for
equality and OR-ed in. -/
def one_of (R : RegexEngine) (lhs : LhsValue) (rhs : List RhsValue) : CmpResult :=
  oneOfLoop R lhs rhs true

/-- Embeds `Filter::combine for bool`. -/
def combine (a : Bool) (op : CombiningOp) (b : Bool) : Bool :=
  match op with
  | .and => a && b
  | .or => a || b
  | .xor => a != b

/-- Embeds `Filter::unary for bool`. -/
def unary (a : Bool) (op : UnaryOp) : Bool :=
  match op with
  | .not => !a

/-- The coarse value domains of the data model: addresses pair with
address ranges, bytes with bytes, integers with integers. -/
inductive Domain where
  | addr
  | bytes
  | uint
deriving DecidableEq

/-- The coarse domain of a runtime value. -/
def lhsDomain : LhsValue → Domain
  | .ipAddr _ => .addr
  | .bytes _ => .bytes
  | .unsigned _ => .uint

/-- The coarse domain of an operand. -/
def rhsDomain : RhsValue → Domain
  | .ipCidr _ => .addr
  | .bytes _ => .bytes
  | .unsigned _ => .uint

/-- A balanced-parentheses check on pattern bytes, tracking open depth. -/
def parenOk : List Nat → Nat → Bool
  | [], d => d == 0
  | c :: t, d =>
    if c = 40 then parenOk t (d + 1)
    else if c = 41 then d != 0 && parenOk t (d - 1)
    else parenOk t d

/-- Modelled from the spec: a concrete stand-in for the external regex
crate in which a pattern with unbalanced parentheses (such as a lone
open parenthesis) is syntactically invalid and fails to compile, and a
compiled pattern matches when its bytes occur within the subject text. -/
def specEngine : RegexEngine :=
  ⟨fun p => if parenOk p 0 then some p else none,
   fun pat s => bytesContains s pat⟩

/-- A regex engine in which every pattern compiles and a compiled pattern
matches when its bytes occur within the subject text; used to instantiate
the engine parameter on concrete inputs. -/
def litEngine : RegexEngine :=
  ⟨fun p => some p, fun pat s => bytesContains s pat⟩

theorem bytesStartsWith_iff (n : List Nat) : ∀ h : List Nat,
    (bytesStartsWith h n = true ↔ ∃ s, h = n ++ s) := by
  induction n with
  | nil => intro h; simp [bytesStartsWith]
  | cons b bs ih =>
    intro h
    cases h with
    | nil => simp [bytesStartsWith]
    | cons a t =>
      simp [bytesStartsWith, ih, List.cons_append, List.cons.injEq, exists_and_left]

theorem bytesContains_iff (n : List Nat) : ∀ h : List Nat,
    (bytesContains h n = true ↔ ∃ p s, h = p ++ n ++ s) := by
  intro h
  induction h with
  | nil =>
    rw [bytesContains]
    simp [bytesStartsWith_iff]
  | cons a t ih =>
    rw [bytesContains]
    simp only [Bool.or_eq_true, ih, bytesStartsWith_iff]
    constructor
    · rintro (⟨s, hs⟩ | ⟨p, s, rfl⟩)
      · exact ⟨[], s, by simpa using hs⟩
      · exact ⟨a :: p, s, rfl⟩
    · rintro ⟨p, s, hp⟩
      cases p with
      | nil => exact .inl ⟨s, by simpa using hp⟩
      | cons x xs =>
        simp only [List.cons_append, List.cons.injEq] at hp
        exact .inr ⟨xs, s, hp.2⟩

theorem execOp_mismatched (R : RegexEngine) (lhs : LhsValue) (op : ComparisonOp)
    (rhs : RhsValue) (h : lhsDomain lhs ≠ rhsDomain rhs) :
    execOp R lhs op rhs = .mismatch := by
  rcases lhs with (a | a) | b | nn <;>
    rcases rhs with (c | c) | rb | rn <;>
    first
      | exact absurd rfl h
      | (rcases op with m | (_ | _ | _) <;> rfl)

theorem rangeOrder_if {T : Type} [LinearOrder T] (v f l : T) (h : f ≤ l) :
    rangeOrder v f l =
      if v < f then Ordering.lt else if l < v then Ordering.gt else Ordering.eq := by
  unfold rangeOrder
  rcases hf : compare v f with _ | _ | _ <;> rcases hl : compare v l with _ | _ | _ <;>
      rw [compare_iff] at hf hl <;> simp only [Ordering.Compares] at hf hl
  · rw [if_pos hf]
  · rw [if_pos hf]
  · rw [if_pos hf]
  · rw [if_neg (by subst hf; exact lt_irrefl v), if_neg (not_lt.2 (le_of_lt hl))]
  · rw [if_neg (by subst hf; exact lt_irrefl v), if_neg (by subst hl; exact lt_irrefl v)]
  · rw [if_neg (by subst hf; exact lt_irrefl v), if_pos hl]
  · rw [if_neg (not_lt.2 (le_of_lt hf)), if_neg (not_lt.2 (le_of_lt hl))]
  · rw [if_neg (not_lt.2 (le_of_lt hf)), if_neg (by subst hl; exact lt_irrefl v)]
  · rw [if_neg (not_lt.2 (le_of_lt hf)), if_pos hl]

/-- Claim C1: the contract asks that one_of return true iff at least one
candidate compares Equal, with the accumulator not seeded with true; the
source seeds the accumulator with true, so one_of(5, [1, 2, 9]) evaluates
to Ok(true) although no candidate equals 5. This theorem evaluates the
embedded code at that failing input, exhibiting the defect the spec's
section 9 describes. -/
theorem one_of_true_despite_no_match (R : RegexEngine) :
    one_of R (.unsigned 5) [.unsigned 1, .unsigned 2, .unsigned 9] = .ok true := rfl

/-- Claim C2: the contract asks that a syntactically invalid pattern in a
Matches comparison between valid-text byte sequences be a reportable error
distinct from a type mismatch and never an abrupt process-level failure;
the source unwraps the fallible pattern compilation, so an engine that
rejects the pattern "(" (unbalanced parenthesis) aborts: the embedded
code at that failing input yields the panicked outcome, not an error value. -/
theorem matches_invalid_pattern_panicked :
    compareVal specEngine (.bytes [97, 98, 99]) (.matching .matches) (.bytes [40]) =
      .panicked := rfl

/-- Claim C3: for every runtime value and operand whose coarse domains do
not align, and every comparison operator, compare returns a type-mismatch
error carrying the type tag of the runtime value's actual domain; the
result is an error constructor, never the panicked outcome. -/
theorem compare_mismatched_domains (R : RegexEngine) (lhs : LhsValue)
    (op : ComparisonOp) (rhs : RhsValue) (h : lhsDomain lhs ≠ rhsDomain rhs) :
    compareVal R lhs op rhs = .error (typeTag lhs) := by
  unfold compareVal
  rw [execOp_mismatched R lhs op rhs h]

/-- Witness for C3 at a concrete input: an IPv4 address compared to an
unsigned-integer operand is a mismatch tagged IpAddrV4. -/
theorem compare_mismatched_domains_witness :
    lhsDomain (.ipAddr (.v4 5)) ≠ rhsDomain (.unsigned 3) ∧
    compareVal litEngine (.ipAddr (.v4 5)) (.ordering OrderingMask.EQUAL) (.unsigned 3) =
      .error .ipAddrV4 :=
  ⟨by decide,
   compare_mismatched_domains litEngine (.ipAddr (.v4 5))
     (.ordering OrderingMask.EQUAL) (.unsigned 3) (by decide)⟩

/-- Claim C4: for every value and inclusive range [f, l] with f ≤ l,
range_order returns Less iff the value is below f, Greater iff above l,
and Equal iff f ≤ value ≤ l; consequently an address compares Equal to a
CIDR operand iff it lies within the block's inclusive first/last bounds. -/
theorem rangeOrder_total_eq_iff_in_range {T : Type} [LinearOrder T] (v f l : T)
    (h : f ≤ l) (a : Nat) (c : Cidr) (hc : c.first ≤ c.last) :
    (rangeOrder v f l = .lt ↔ v < f) ∧
    (rangeOrder v f l = .gt ↔ l < v) ∧
    (rangeOrder v f l = .eq ↔ f ≤ v ∧ v ≤ l) ∧
    (partialCmp (.ipAddr (.v4 a)) (.ipCidr (.v4 c)) = some .eq ↔
      c.first ≤ a ∧ a ≤ c.last) := by
  refine ⟨?_, ?_, ?_, ?_⟩
  · rw [rangeOrder_if v f l h]
    split_ifs with h1 h2 <;> simp_all
  · rw [rangeOrder_if v f l h]
    split_ifs with h1 h2 <;> simp_all
    exact le_of_lt (lt_of_lt_of_le h1 h)
  · rw [rangeOrder_if v f l h]
    split_ifs with h1 h2 <;> simp_all [not_lt]
  · show some (ipOrder a c) = some Ordering.eq ↔ _
    rw [Option.some_inj]
    unfold ipOrder
    rw [rangeOrder_if a c.first c.last hc]
    split_ifs with h1 h2 <;> simp_all [not_lt]

/-- Witness for C4 at concrete inputs: 5 is within [0, 255], so
range_order yields Equal and the address 5 compares Equal to the CIDR
block with first address 0 and last address 255. -/
theorem rangeOrder_total_eq_iff_in_range_witness :
    rangeOrder (5 : Nat) 0 255 = .eq ∧
    partialCmp (.ipAddr (.v4 5)) (.ipCidr (.v4 ⟨0, 255⟩)) = some .eq :=
  ⟨(rangeOrder_total_eq_iff_in_range (5 : Nat) 0 255 (by decide) 5 ⟨0, 255⟩
      (by decide)).2.2.1.mpr ⟨by decide, by decide⟩,
   (rangeOrder_total_eq_iff_in_range (5 : Nat) 0 255 (by decide) 5 ⟨0, 255⟩
      (by decide)).2.2.2.mpr ⟨by decide, by decide⟩⟩

/-- Claim C5: the contract asks that a type mismatch propagate out of
one_of exactly when no candidate matched and some comparison mismatched,
so that a matching candidate makes the overall result true even when
another candidate's comparison is a mismatch; the source propagates the
first mismatch unconditionally via the question-mark operator. This
theorem evaluates the embedded code at a failing input: the first
candidate (5) matches the value (5), yet the second candidate (a CIDR
operand, mismatched against an unsigned value) makes the whole call
return a type-mismatch error instead of true. -/
theorem one_of_error_despite_match (R : RegexEngine) :
    one_of R (.unsigned 5) [.unsigned 5, .ipCidr (.v4 ⟨0, 10⟩)] =
      .error .unsigned := rfl

/-- Claim C6: a Matches comparison requires both byte sequences to be
valid text: if either side is not valid text the result is a type
mismatch carrying the runtime value's tag (not the panicked outcome), and
when both sides are valid text and the pattern compiles, the result is
whether the compiled pattern matches within the value's text. -/
theorem matches_text_gated (R : RegexEngine) (v p : List Nat) :
    (isUtf8 v = false ∨ isUtf8 p = false →
      compareVal R (.bytes v) (.matching .matches) (.bytes p) =
        .error (typeTag (.bytes v))) ∧
    (∀ pat, isUtf8 v = true → isUtf8 p = true → R.compile p = some pat →
      compareVal R (.bytes v) (.matching .matches) (.bytes p) =
        .ok (R.isMatch pat v)) := by
  constructor
  · intro hvp
    rcases hvp with hv | hp
    · simp [compareVal, execOp, asStr, hv]
    · cases hv2 : isUtf8 v <;> simp [compareVal, execOp, asStr, hv2, hp]
  · intro pat hv hp hc
    simp [compareVal, execOp, asStr, hv, hp, hc]

/-- Witness for C6 at concrete inputs: the non-text bytes [255, 254] used
with Matches give a type mismatch tagged Bytes, while the valid text
"abc" matched against the always-compiling literal engine's pattern "a"
gives Ok(true). -/
theorem matches_text_gated_witness :
    compareVal litEngine (.bytes [255, 254]) (.matching .matches) (.bytes [97]) =
      .error (typeTag (.bytes [255, 254])) ∧
    typeTag (.bytes [255, 254]) = .bytes ∧
    compareVal litEngine (.bytes [97, 98, 99]) (.matching .matches) (.bytes [97]) =
      .ok (litEngine.isMatch [97] [97, 98, 99]) ∧
    litEngine.isMatch [97] [97, 98, 99] = true :=
  ⟨(matches_text_gated litEngine [255, 254] [97]).1 (Or.inl (by decide)),
   by decide,
   (matches_text_gated litEngine [97, 98, 99] [97]).2 [97] (by decide) (by decide) rfl,
   by decide⟩

/-- Claim C7: the BitwiseAnd matching operator on two unsigned integers
yields true iff their bitwise AND is nonzero; in particular 6 and 2 give
true, 4 and 2 give false. -/
theorem bitwiseAnd_iff_nonzero (R : RegexEngine) (v o : Nat) :
    (execOp R (.unsigned v) (.matching .bitwiseAnd) (.unsigned o) = .value true ↔
      v &&& o ≠ 0) ∧
    execOp R (.unsigned 6) (.matching .bitwiseAnd) (.unsigned 2) = .value true ∧
    execOp R (.unsigned 4) (.matching .bitwiseAnd) (.unsigned 2) = .value false := by
  refine ⟨?_, rfl, rfl⟩
  simp [execOp, bne_iff_ne]

/-- Claim C8: the Contains matching operator on two byte sequences yields
true iff the operand's bytes occur as a contiguous sub-sequence of the
value's bytes, for arbitrary (not necessarily valid-text) bytes; in
particular "hello world" contains "wor" and "hello" does not contain
"xyz". -/
theorem contains_iff_contiguous_subsequence (R : RegexEngine) (v o : List Nat) :
    (execOp R (.bytes v) (.matching .contains) (.bytes o) = .value true ↔
      ∃ p s, v = p ++ o ++ s) ∧
    execOp R (.bytes [104, 101, 108, 108, 111, 32, 119, 111, 114, 108, 100])
      (.matching .contains) (.bytes [119, 111, 114]) = .value true ∧
    execOp R (.bytes [104, 101, 108, 108, 111]) (.matching .contains)
      (.bytes [120, 121, 122]) = .value false := by
  refine ⟨?_, rfl, rfl⟩
  simp [execOp, bytesContains_iff]

/-- Claim C9: the boolean combinator layer computes And as conjunction,
Or as disjunction, Xor as inequality, and Not as negation, as pure total
functions on booleans. -/
theorem combinators_truth_tables (a b : Bool) :
    combine a .and b = (a && b) ∧ combine a .or b = (a || b) ∧
    combine a .xor b = (a != b) ∧ unary a .not = !a :=
  ⟨rfl, rfl, rfl, rfl⟩

/-- Claim C10: one_of applied to an empty candidate sequence returns
Ok(true) for every runtime value, because the accumulator is seeded with
true and returned unchanged when there is no candidate to examine. -/
theorem one_of_empty_ok_true (R : RegexEngine) (lhs : LhsValue) :
    one_of R lhs [] = .ok true := rfl

end Wirefilter
